import Mathlib

/-!
# A verification model of `read_csv_data` (Assignment_2_Code.py)

This file gives a shallow embedding of the table-reshaping function
`read_csv_data` of `Assignment_2_Code.py` and proves properties of it.

The pandas pipeline in the source is, line by line:

* `pd.read_csv(filename, skiprows=4)` — parse, skipping four lines;
* `ccDf.drop(columns=['Country Code', 'Indicator Code', 'Unnamed: 66'])`;
* `ccDf.melt(id_vars=['Country Name', 'Indicator Name'], var_name='Year',
  value_name='Value')` — wide-to-long;
* `ccDf.pivot_table(values='Value', columns='Indicator Name',
  index=['Country Name', 'Year']).reset_index()` — long-to-wide with the
  default `aggfunc='mean'`; `pivot_table` sorts its keys, averages the
  non-missing values of duplicate (country, indicator, year) triples, and
  (default `dropna=True`) omits (country, year) rows and indicator columns
  whose aggregated entries are all missing;
* `ccDf.dropna(thresh=int(0.25 * ccDf.shape[0]), axis=1)` — keep a column
  iff its number of non-missing cells is at least `⌊0.25·rowCount⌋`;
* `ccDf.dropna(thresh=int(0.25 * ccDf.shape[1]))` — keep a row iff its
  number of non-missing cells is at least `⌊0.25·columnCount⌋`, the column
  count taken after the previous step;
* `ccDf.set_index(['Year', 'Country Name']).unstack(level=0)
  .swaplevel(axis=1).sort_index(axis=1, level=0)` — `dfYears`;
* `ccDf.set_index(['Year', 'Country Name']).unstack(level=1)
  .swaplevel(axis=1).sort_index(axis=1, level=0)` — `dfCountries`.

Modelling choices: cell values are `Option ℚ` (missing = `none`); pandas
label sorting (string order by Unicode code point) is modelled by the
executable lexicographic order `strLt`; `int(0.25 * n)` is `n / 4` on `ℕ`
(`0.25 * n` is exact in floating point for any realistic `n`, and `int`
truncates).
-/

namespace Assignment2

/-! ## String order

pandas sorts string labels with Python's `<`, which compares strings
lexicographically by Unicode code point.  `strLt` is that order, written
as an executable function on the character lists so that it evaluates
inside the kernel. -/

/-- Lexicographic strict order on character lists, by code point. -/
def strLtL : List Char → List Char → Bool
  | [], [] => false
  | [], _ :: _ => true
  | _ :: _, [] => false
  | a :: as, b :: bs =>
    if a.toNat < b.toNat then true
    else if b.toNat < a.toNat then false
    else strLtL as bs

/-- Lexicographic strict order on strings, by code point (Python `<`). -/
def strLt (a b : String) : Bool := strLtL a.data b.data

/-- Non-strict version of `strLt`, used to state sortedness of labels. -/
def strLe (a b : String) : Prop := strLt a b = true ∨ a = b

/-! ## Sorting with deduplication

`sortDedup` returns the distinct elements of a list in ascending `strLt`
order.  It models the sorted, duplicate-free label sets that pandas
produces for group keys (`pivot_table` with `sort=True`), for the levels
of a `MultiIndex`, and for the labels introduced by `unstack`. -/

/-- Insert into a strictly sorted list, keeping it sorted and dropping
duplicates. -/
def insertS (x : String) : List String → List String
  | [] => [x]
  | y :: ys =>
    if x = y then y :: ys
    else if strLt x y then x :: y :: ys
    else y :: insertS x ys

/-- Sorted list of the distinct elements of `l` (ascending `strLt`). -/
def sortDedup : List String → List String
  | [] => []
  | x :: xs => insertS x (sortDedup xs)

/-- The sortedness predicate used throughout: strictly ascending. -/
def SortedLt (l : List String) : Prop := l.Pairwise (fun a b => strLt a b = true)

/-! ## The data model

`RawCSV` is the parsed CSV as it stands right after
`pd.read_csv(filename, skiprows=4)` followed by
`drop(columns=['Country Code', 'Indicator Code', 'Unnamed: 66'])`,
presented record-wise: one `RawRow` per source row, holding the two
identifier strings that survive (`Country Name`, `Indicator Name`), the
two code strings of the dropped columns (kept in the model to show they
do not influence the result), and one `Option ℚ` per year column.
`yearCols` is the list of year column headers, in file order. -/

/-- One data row of the raw file, after the four skipped lines. -/
structure RawRow where
  countryName : String
  countryCode : String
  indicatorName : String
  indicatorCode : String
  values : List (Option ℚ)
deriving DecidableEq, Repr

/-- The parsed CSV (post-`drop`): year column headers plus data rows. -/
structure RawCSV where
  yearCols : List String
  rows : List RawRow
deriving DecidableEq, Repr

/-- The five named (non-year) columns of the expected schema. -/
def specialCols : List String :=
  ["Country Name", "Country Code", "Indicator Name", "Indicator Code", "Unnamed: 66"]

/-- Well-formedness of the parsed file: pandas headers are distinct
(`read_csv` mangles duplicates), the year columns are the columns other
than the five named ones, and every row has one cell per year column. -/
def RawCSV.valid (t : RawCSV) : Prop :=
  t.yearCols.Nodup ∧ (∀ s ∈ t.yearCols, s ∉ specialCols) ∧
    ∀ r ∈ t.rows, r.values.length = t.yearCols.length

/-- One row of the melted (long-form) table:
`ccDf.melt(id_vars=['Country Name', 'Indicator Name'], var_name='Year',
value_name='Value')`. -/
structure LongRow where
  country : String
  indicator : String
  year : String
  value : Option ℚ
deriving DecidableEq, Repr

/-- `melt`: one long row per (data row, year column) pair.  pandas emits
the long table column-block by column-block; the order is irrelevant
downstream because `pivot_table` sorts its keys. -/
def melt (t : RawCSV) : List LongRow :=
  t.yearCols.enum.flatMap fun p =>
    t.rows.map fun r =>
      { country := r.countryName
        indicator := r.indicatorName
        year := p.2
        value := r.values.getD p.1 none }

/-- The non-missing `Value`s of the long rows with key
(country `c`, indicator `i`, year `y`) — the multiset `pivot_table`
aggregates into one cell. -/
def matchVals (l : List LongRow) (c i y : String) : List ℚ :=
  l.filterMap fun lr =>
    if lr.country = c ∧ lr.indicator = i ∧ lr.year = y then lr.value else none

/-- One aggregated cell of the pivot: the arithmetic mean of the
non-missing matching values (`pivot_table`'s default `aggfunc='mean'`,
which skips missing values), or missing if there are none. -/
def cellMean (l : List LongRow) (c i y : String) : Option ℚ :=
  if matchVals l c i y = [] then none
  else some ((matchVals l c i y).sum / ((matchVals l c i y).length : ℚ))

/-- The (country, year) pairs backed by at least one non-missing value. -/
def rawKeys (l : List LongRow) : List (String × String) :=
  l.filterMap fun lr =>
    if lr.value.isSome then some (lr.country, lr.year) else none

/-- The indicators backed by at least one non-missing value. -/
def rawInds (l : List LongRow) : List String :=
  l.filterMap fun lr => if lr.value.isSome then some lr.indicator else none

/-- Row keys of the pivoted frame: the distinct (Country Name, Year)
pairs with at least one non-missing value, in ascending lexicographic
order.  `pivot_table` sorts its group keys (`sort=True`) and, with its
default `dropna=True`, drops keys whose aggregated row is entirely
missing — exactly the keys with no non-missing source value. -/
def pivotKeys (t : RawCSV) : List (String × String) :=
  (sortDedup ((rawKeys (melt t)).map Prod.fst)).flatMap fun c =>
    (sortDedup (((rawKeys (melt t)).filter
        (fun p => decide (p.1 = c))).map Prod.snd)).map fun y => (c, y)

/-- Indicator columns of the pivoted frame: the distinct indicators with
at least one non-missing value, sorted (an `unstack`ed column level is
sorted; `pivot_table`'s `dropna=True` drops all-missing columns). -/
def pivotCols (t : RawCSV) : List String := sortDedup (rawInds (melt t))

/-- `ccDf.shape[0]` at the column-pruning line: the row count of the
pivoted frame, before any pruning. -/
def pivotShape0 (t : RawCSV) : ℕ := (pivotKeys t).length

/-- Number of non-missing cells of indicator column `i`. -/
def colNonNull (t : RawCSV) (i : String) : ℕ :=
  ((pivotKeys t).filter fun p => (cellMean (melt t) p.1 i p.2).isSome).length

/-- The indicator columns surviving
`ccDf.dropna(thresh=int(0.25 * ccDf.shape[0]), axis=1)`: a column is kept
iff it has at least `⌊0.25·shape[0]⌋` non-missing cells.  (The
`Country Name` and `Year` columns produced by `reset_index` hold strings,
are never missing, and therefore always survive this step.) -/
def keptInds (t : RawCSV) : List String :=
  (pivotCols t).filter fun i => decide (pivotShape0 t / 4 ≤ colNonNull t i)

/-- `ccDf.shape[1]` at the row-pruning line: the column count after
column pruning — the surviving indicators plus the two identifier
columns `Country Name` and `Year`. -/
def prunedShape1 (t : RawCSV) : ℕ := (keptInds t).length + 2

/-- Non-missing cells of the row keyed `(c, y)` in the column-pruned
frame: its two identifier cells (strings, never missing) plus its
non-missing cells among the surviving indicator columns. -/
def rowNonNull (t : RawCSV) (c y : String) : ℕ :=
  2 + ((keptInds t).filter fun i => (cellMean (melt t) c i y).isSome).length

/-- The row keys surviving `ccDf.dropna(thresh=int(0.25 * ccDf.shape[1]))`:
a row is kept iff it has at least `⌊0.25·shape[1]⌋` non-missing cells. -/
def prunedKeys (t : RawCSV) : List (String × String) :=
  (pivotKeys t).filter fun p =>
    decide (prunedShape1 t / 4 ≤ rowNonNull t p.1 p.2)

/-- The countries present in the pruned frame, ascending. -/
def presentCountries (t : RawCSV) : List String :=
  sortDedup ((prunedKeys t).map Prod.fst)

/-- The years present in the pruned frame, ascending. -/
def presentYears (t : RawCSV) : List String :=
  sortDedup ((prunedKeys t).map Prod.snd)

/-! ## The two output views

`dfYears` and `dfCountries` are produced by
`set_index(['Year', 'Country Name']).unstack(level).swaplevel(axis=1)
.sort_index(axis=1, level=0)`.  `unstack(level)` moves the given index
level to a new innermost column level whose labels are the sorted
distinct values of that level, taking the cartesian product with the
existing columns and filling missing combinations with NaN; the rows are
the sorted distinct remaining-level labels.  `swaplevel(axis=1)` swaps
the two column levels, and `sort_index(axis=1, level=0)` sorts the
columns by outer label (and, `sort_remaining=True` being the default, by
inner label within each outer group). -/

/-- Columns created by `unstack`: existing columns (outer) crossed with
the sorted distinct unstacked labels (inner). -/
def unstackCols (inds : List String) (labels : List String) :
    List (String × String) :=
  inds.flatMap fun i => (sortDedup labels).map fun b => (i, b)

/-- `swaplevel(axis=1)`: swap the two column levels. -/
def swapCols (cs : List (String × String)) : List (String × String) :=
  cs.map Prod.swap

/-- `sort_index(axis=1, level=0)` on a duplicate-free two-level column
index: group the columns by outer label in ascending order and sort each
group by inner label. -/
def sortColsLvl0 (cs : List (String × String)) : List (String × String) :=
  (sortDedup (cs.map Prod.fst)).flatMap fun a =>
    (sortDedup ((cs.filter (fun p => decide (p.1 = a))).map Prod.snd)).map
      fun b => (a, b)

/-- Cartesian product of label lists, outer-major — the layout of a
two-level column index sorted on both levels. -/
def pairProd (A B : List String) : List (String × String) :=
  A.flatMap fun a => B.map fun b => (a, b)

/-- A finished wide table: row labels, two-level column labels, and the
cell matrix (row-major, aligned with `rowIndex` and `cols`). -/
structure Wide where
  rowIndex : List String
  cols : List (String × String)
  cells : List (List (Option ℚ))
deriving DecidableEq, Repr

/-- Cell of the pruned frame at row key `(c, y)`, indicator `i`, as
placed by `unstack`: missing whenever the row key did not survive. -/
def prunedCell (t : RawCSV) (c i y : String) : Option ℚ :=
  if (c, y) ∈ prunedKeys t then cellMean (melt t) c i y else none

/-- Column labels of `dfYears`: unstack `Year` (level 0) under the
indicator columns, swap to (Year, IndicatorName), sort by year. -/
def dfYearsCols (t : RawCSV) : List (String × String) :=
  sortColsLvl0 (swapCols (unstackCols (keptInds t) ((prunedKeys t).map Prod.snd)))

/-- Column labels of `dfCountries`: unstack `Country Name` (level 1)
under the indicator columns, swap to (CountryName, IndicatorName), sort
by country. -/
def dfCountriesCols (t : RawCSV) : List (String × String) :=
  sortColsLvl0 (swapCols (unstackCols (keptInds t) ((prunedKeys t).map Prod.fst)))

/-- Cell of `dfYears` at row label `c` (a country) and column label
`(year, indicator)`. -/
def dfYearsCell (t : RawCSV) (c : String) (yi : String × String) : Option ℚ :=
  prunedCell t c yi.2 yi.1

/-- Cell of `dfCountries` at row label `y` (a year) and column label
`(country, indicator)`. -/
def dfCountriesCell (t : RawCSV) (y : String) (ci : String × String) : Option ℚ :=
  prunedCell t ci.1 ci.2 y

/-- The first returned table: rows = countries, columns =
(Year, IndicatorName), sorted on every label level. -/
def dfYears (t : RawCSV) : Wide :=
  { rowIndex := presentCountries t
    cols := dfYearsCols t
    cells := (presentCountries t).map fun c =>
      (dfYearsCols t).map fun yi => dfYearsCell t c yi }

/-- The second returned table: rows = years, columns =
(CountryName, IndicatorName), sorted on every label level. -/
def dfCountries (t : RawCSV) : Wide :=
  { rowIndex := presentYears t
    cols := dfCountriesCols t
    cells := (presentYears t).map fun y =>
      (dfCountriesCols t).map fun ci => dfCountriesCell t y ci }

/-- `read_csv_data` on an already parsed and column-dropped file:
returns the pair `(dfYears, dfCountries)`. -/
def read_csv_data (t : RawCSV) : Wide × Wide := (dfYears t, dfCountries t)

/-- Label-based cell lookup in a `Wide` table: find the row with the
given label, then the column with the given label pair. -/
def Wide.get (w : Wide) (r : String) (c : String × String) : Option ℚ :=
  ((w.rowIndex.zip w.cells).find? (fun p => decide (p.1 = r))).bind fun p =>
    ((w.cols.zip p.2).find? (fun q => decide (q.1 = c))).bind fun q => q.2

/-! ## The unchecked front end

The claims about error behaviour concern inputs that do not match the
expected schema.  `GenTable` is a parsed CSV with arbitrary header and
cells; `read_csv_data_checked` models the fallible part of
`read_csv_data`: a missing or unreadable file makes `pd.read_csv` raise,
and a header lacking any of `Country Name`, `Indicator Name`,
`Country Code`, `Indicator Code` or `Unnamed: 66` makes `drop` (or
`melt`) raise a `KeyError`; either way the exception propagates and no
table pair is returned. -/

/-- A cell of an arbitrary parsed CSV: text, number, or missing. -/
inductive Cell where
  | str : String → Cell
  | num : ℚ → Cell
  | na : Cell
deriving DecidableEq, Repr

/-- A parsed CSV with arbitrary header. -/
structure GenTable where
  header : List String
  rows : List (List Cell)
deriving DecidableEq, Repr

/-- The columns whose absence makes `drop` or `melt` raise. -/
def requiredCols : List String :=
  ["Country Name", "Indicator Name", "Country Code", "Indicator Code", "Unnamed: 66"]

/-- Read a cell as a string (identifier columns hold strings). -/
def getStr : Cell → String
  | .str s => s
  | _ => ""

/-- Read a cell as a numeric value (year columns hold numbers or NaN). -/
def getNum : Cell → Option ℚ
  | .num q => some q
  | _ => none

/-- Index of a named column in the header. -/
def colIdx (g : GenTable) (s : String) : ℕ :=
  (g.header.findIdx? fun h => decide (h = s)).getD 0

/-- Interpret a schema-complete `GenTable` as a `RawCSV`: the year
columns are the header entries other than the five named columns
(`drop` removes three of them, `melt`'s `id_vars` the other two). -/
def toRawCSV (g : GenTable) : RawCSV :=
  { yearCols := ((g.header.enum.filter
      fun p => decide (p.2 ∉ specialCols)).map Prod.snd)
    rows := g.rows.map fun row =>
      { countryName := getStr (row.getD (colIdx g "Country Name") Cell.na)
        countryCode := getStr (row.getD (colIdx g "Country Code") Cell.na)
        indicatorName := getStr (row.getD (colIdx g "Indicator Name") Cell.na)
        indicatorCode := getStr (row.getD (colIdx g "Indicator Code") Cell.na)
        values := (g.header.enum.filter
            fun p => decide (p.2 ∉ specialCols)).map
          fun p => getNum (row.getD p.1 Cell.na) } }

/-- The fallible pipeline: `none` stands for a missing or unreadable
file (`pd.read_csv` raises), a header lacking a required column makes
`drop`/`melt` raise; otherwise the reshaping runs and returns the pair. -/
def read_csv_data_checked (inp : Option GenTable) : Except String (Wide × Wide) :=
  match inp with
  | none => .error "IOError: file missing or unreadable"
  | some g =>
    if ∀ s ∈ requiredCols, s ∈ g.header then
      .ok (read_csv_data (toRawCSV g))
    else .error "KeyError: expected column missing"

/-! ## Concrete example inputs -/

/-- The three columns removed by the `drop` call. -/
def droppedCols : List String := ["Country Code", "Indicator Code", "Unnamed: 66"]

/-- Two countries, two years, two indicators; nothing is pruned. -/
def exampleT : RawCSV :=
  { yearCols := ["0", "1"]
    rows := [⟨"A", "ac", "X", "xc", [some 1, some 2]⟩,
             ⟨"B", "bc", "Y", "yc", [some 3, none]⟩] }

/-- Duplicate (country, indicator) pair: the same (A, X, year 0) triple
carries the two values 1 and 3. -/
def exampleDup : RawCSV :=
  { yearCols := ["0"]
    rows := [⟨"A", "ac", "X", "xc", [some 1]⟩,
             ⟨"A", "ac", "X", "xc", [some 3]⟩] }

/-- Pivoted table with 5 rows ((A, year) for the five years, thanks to
indicator X) in which indicator Z is non-missing in exactly one row —
20% of the rows. -/
def cexThreshold : RawCSV :=
  { yearCols := ["0", "1", "2", "3", "4"]
    rows := [⟨"A", "ac", "X", "xc",
               [some 1, some 1, some 1, some 1, some 1]⟩,
             ⟨"A", "ac", "Z", "zc", [some 1, none, none, none, none]⟩] }

/-- Pivoted table with 20 rows ((A, y) and (B, y) for ten years, thanks
to indicator X); indicator Z is non-missing in 4 rows (20%), indicator W
in 5 rows (25%). -/
def exampleWide : RawCSV :=
  { yearCols := ["0", "1", "2", "3", "4", "5", "6", "7", "8", "9"]
    rows := [⟨"A", "ac", "X", "xc",
               [some 1, some 1, some 1, some 1, some 1,
                some 1, some 1, some 1, some 1, some 1]⟩,
             ⟨"B", "bc", "X", "xc",
               [some 1, some 1, some 1, some 1, some 1,
                some 1, some 1, some 1, some 1, some 1]⟩,
             ⟨"A", "ac", "Z", "zc",
               [some 1, some 1, some 1, some 1, none,
                none, none, none, none, none]⟩,
             ⟨"A", "ac", "W", "wc",
               [some 1, some 1, some 1, some 1, some 1,
                none, none, none, none, none]⟩] }

/-- One country A, one indicator X, one year: the smallest input that
shows which column level of `dfCountries` is outer. -/
def cexLevels : RawCSV :=
  { yearCols := ["0"], rows := [⟨"A", "ac", "X", "xc", [some 1]⟩] }

/-- A valid input whose indicator is *named* "Country Code". -/
def cexDropName : RawCSV :=
  { yearCols := ["0"], rows := [⟨"A", "ac", "Country Code", "cc", [some 1]⟩] }

/-- A schema-complete parsed file for the front-end claims. -/
def exampleGen : GenTable :=
  { header := ["Country Name", "Country Code", "Indicator Name",
               "Indicator Code", "0", "Unnamed: 66"]
    rows := [[.str "A", .str "ac", .str "X", .str "xc", .num 1, .na]] }

/-- A parsed file missing four of the five required columns. -/
def badGen : GenTable := { header := ["Country Name"], rows := [] }


theorem strLtL_irrefl : ∀ l, strLtL l l = false
  | [] => rfl
  | _ :: as => by simp [strLtL, strLtL_irrefl as]

theorem strLtL_asymm : ∀ l m, strLtL l m = true → strLtL m l = false
  | [], [], h => by simp [strLtL] at h
  | [], _ :: _, _ => rfl
  | _ :: _, [], h => by simp [strLtL] at h
  | a :: as, b :: bs, h => by
    simp only [strLtL] at h ⊢
    rcases Nat.lt_trichotomy a.toNat b.toNat with hab | hab | hab
    · simp [hab, Nat.lt_asymm hab]
    · simp only [hab, Nat.lt_irrefl, if_false] at h ⊢
      exact strLtL_asymm as bs h
    · simp [hab, Nat.lt_asymm hab] at h

theorem strLtL_trans :
    ∀ l m n, strLtL l m = true → strLtL m n = true → strLtL l n = true
  | [], _ :: _, _ :: _, _, _ => rfl
  | [], [], _, h, _ => by simp [strLtL] at h
  | [], _ :: _, [], _, h => by simp [strLtL] at h
  | _ :: _, [], _, h, _ => by simp [strLtL] at h
  | _ :: _, _ :: _, [], _, h => by simp [strLtL] at h
  | a :: as, b :: bs, c :: cs, h, h' => by
    simp only [strLtL] at h h' ⊢
    rcases Nat.lt_trichotomy a.toNat b.toNat with hab | hab | hab
    · rcases Nat.lt_trichotomy b.toNat c.toNat with hbc | hbc | hbc
      · simp [Nat.lt_trans hab hbc]
      · simp [hbc ▸ hab]
      · simp [hbc, Nat.lt_asymm hbc] at h'
    · rcases Nat.lt_trichotomy b.toNat c.toNat with hbc | hbc | hbc
      · simp [hab ▸ hbc]
      · simp only [hab, hbc, Nat.lt_irrefl, if_false] at h h' ⊢
        exact strLtL_trans as bs cs h h'
      · simp [hbc, Nat.lt_asymm hbc] at h'
    · simp [hab, Nat.lt_asymm hab] at h

theorem strLtL_eq_of_not_lt :
    ∀ l m, strLtL l m = false → strLtL m l = false → l = m
  | [], [], _, _ => rfl
  | [], _ :: _, h, _ => by simp [strLtL] at h
  | _ :: _, [], _, h => by simp [strLtL] at h
  | a :: as, b :: bs, h, h' => by
    simp only [strLtL] at h h'
    rcases Nat.lt_trichotomy a.toNat b.toNat with hab | hab | hab
    · simp [hab] at h
    · have hc : a = b := Char.eq_of_val_eq (UInt32.eq_of_val_eq (Fin.eq_of_val_eq hab))
      subst hc
      simp only [Nat.lt_irrefl, if_false] at h h'
      exact congrArg (a :: ·) (strLtL_eq_of_not_lt as bs h h')
    · simp [hab, Nat.lt_asymm hab] at h'

theorem strLt_irrefl (a : String) : strLt a a = false := strLtL_irrefl _

theorem strLt_asymm {a b : String} (h : strLt a b = true) : strLt b a = false :=
  strLtL_asymm _ _ h

theorem strLt_trans {a b c : String} (h : strLt a b = true)
    (h' : strLt b c = true) : strLt a c = true :=
  strLtL_trans _ _ _ h h'

theorem strLt_eq_of_not_lt {a b : String} (h : strLt a b = false)
    (h' : strLt b a = false) : a = b := by
  cases a; cases b
  exact congrArg String.mk (strLtL_eq_of_not_lt _ _ h h')

theorem strLt_ne {a b : String} (h : strLt a b = true) : a ≠ b := by
  rintro rfl
  rw [strLt_irrefl] at h
  exact Bool.false_ne_true h

theorem mem_insertS {a x : String} :
    ∀ {l : List String}, (a ∈ insertS x l ↔ a = x ∨ a ∈ l)
  | [] => by simp [insertS]
  | y :: ys => by
    by_cases hxy : x = y
    · subst hxy
      simp only [insertS]
      rw [if_pos trivial]
      simp only [List.mem_cons]
      tauto
    · by_cases hlt : strLt x y = true
      · simp only [insertS]
        rw [if_neg hxy, if_pos hlt]
        simp only [List.mem_cons]
      · simp only [insertS]
        rw [if_neg hxy, if_neg hlt]
        simp only [List.mem_cons, mem_insertS (l := ys)]
        tauto

theorem sorted_insertS {x : String} :
    ∀ {l : List String}, SortedLt l → SortedLt (insertS x l)
  | [], _ => List.pairwise_singleton _ _
  | y :: ys, h => by
    simp only [insertS]
    by_cases hxy : x = y
    · simpa [hxy]
    · rw [if_neg hxy]
      rcases List.pairwise_cons.mp h with ⟨hy, hys⟩
      by_cases hlt : strLt x y = true
      · rw [if_pos hlt]
        refine List.pairwise_cons.mpr ⟨?_, h⟩
        intro b hb
        rcases List.mem_cons.mp hb with rfl | hb
        · exact hlt
        · exact strLt_trans hlt (hy b hb)
      · rw [if_neg hlt]
        refine List.pairwise_cons.mpr ⟨?_, sorted_insertS hys⟩
        intro b hb
        rcases mem_insertS.mp hb with rfl | hb
        · have hyx : strLt y b = false → False := by
            intro hf
            exact hxy (strLt_eq_of_not_lt (Bool.eq_false_iff.mpr hlt) hf)
          cases hb2 : strLt y b
          · exact absurd hb2 hyx
          · rfl
        · exact hy b hb

theorem mem_sortDedup {a : String} :
    ∀ {l : List String}, (a ∈ sortDedup l ↔ a ∈ l)
  | [] => Iff.rfl
  | x :: xs => by
    simp only [sortDedup, mem_insertS, List.mem_cons, mem_sortDedup (l := xs)]

theorem sorted_sortDedup : ∀ (l : List String), SortedLt (sortDedup l)
  | [] => List.Pairwise.nil
  | _ :: xs => sorted_insertS (sorted_sortDedup xs)

/-- Two strictly sorted lists with the same members are equal. -/
theorem sortedLt_ext :
    ∀ {l m : List String}, SortedLt l → SortedLt m →
      (∀ a, a ∈ l ↔ a ∈ m) → l = m
  | [], [], _, _, _ => rfl
  | [], b :: bs, _, _, h => by
    exact absurd ((h b).mpr (List.mem_cons_self b bs)) (List.not_mem_nil b)
  | a :: as, [], _, _, h => by
    exact absurd ((h a).mp (List.mem_cons_self a as)) (List.not_mem_nil a)
  | a :: as, b :: bs, hl, hm, h => by
    rcases List.pairwise_cons.mp hl with ⟨ha, has⟩
    rcases List.pairwise_cons.mp hm with ⟨hb, hbs⟩
    have hab : a = b := by
      rcases List.mem_cons.mp ((h a).mp (List.mem_cons_self a as)) with hab | hab
      · exact hab
      · rcases List.mem_cons.mp ((h b).mpr (List.mem_cons_self b bs)) with hba | hba
        · exact hba.symm
        · exact absurd (hb a hab) (by simp [strLt_asymm (ha b hba)])
    subst hab
    have htail : ∀ x, x ∈ as ↔ x ∈ bs := by
      intro x
      constructor
      · intro hx
        rcases List.mem_cons.mp ((h x).mp (List.mem_cons.mpr (Or.inr hx))) with rfl | hx'
        · exact absurd rfl (strLt_ne (ha x hx))
        · exact hx'
      · intro hx
        rcases List.mem_cons.mp ((h x).mpr (List.mem_cons.mpr (Or.inr hx))) with rfl | hx'
        · exact absurd rfl (strLt_ne (hb x hx))
        · exact hx'
    exact congrArg (a :: ·) (sortedLt_ext has hbs htail)

/-- `sortDedup` fixes lists that are already strictly sorted. -/
theorem sortDedup_eq_self {l : List String} (h : SortedLt l) : sortDedup l = l :=
  sortedLt_ext (sorted_sortDedup l) h (fun _ => mem_sortDedup)

/-- `sortDedup` only depends on the set of members. -/
theorem sortDedup_congr {l m : List String} (h : ∀ a, a ∈ l ↔ a ∈ m) :
    sortDedup l = sortDedup m :=
  sortedLt_ext (sorted_sortDedup l) (sorted_sortDedup m)
    (fun a => by rw [mem_sortDedup, mem_sortDedup]; exact h a)

/-- Filtering a strictly sorted list for one of its members gives a
singleton. -/
theorem filter_eq_singleton {l : List String} (h : SortedLt l) {a : String}
    (ha : a ∈ l) : l.filter (fun b => decide (b = a)) = [a] := by
  induction l with
  | nil => exact absurd ha (List.not_mem_nil a)
  | cons x xs ih =>
    rcases List.pairwise_cons.mp h with ⟨hx, hxs⟩
    rcases List.mem_cons.mp ha with rfl | ha'
    · have hrest : xs.filter (fun b => decide (b = a)) = [] := by
        apply List.filter_eq_nil_iff.mpr
        intro b hb
        simp only [decide_eq_true_eq]
        exact fun hba => absurd rfl (hba ▸ strLt_ne (hx b hb))
      simp [List.filter_cons, hrest]
    · have hxa : x ≠ a := fun hxa => absurd rfl (hxa ▸ strLt_ne (hx a ha'))
      simp [List.filter_cons, hxa, ih hxs ha']

/-! ## Lookup and structure lemmas -/

theorem find_zip_map {α β : Type} [DecidableEq α] :
    ∀ (l : List α) (g : α → β) (x : α),
      (l.zip (l.map g)).find? (fun p => decide (p.1 = x)) =
        if x ∈ l then some (x, g x) else none
  | [], _, x => by simp
  | a :: tl, g, x => by
    by_cases hax : a = x
    · subst hax
      rw [List.map_cons, List.zip_cons_cons, List.find?_cons_of_pos _ (by simp)]
      simp [List.mem_cons]
    · rw [List.map_cons, List.zip_cons_cons,
        List.find?_cons_of_neg _ (by simp [hax]), find_zip_map tl g x]
      by_cases hx : x ∈ tl
      · simp [hx, List.mem_cons]
      · simp [hx, List.mem_cons, Ne.symm hax]

/-- Lookup in a table built row-major from a cell function. -/
theorem get_build (ri : List String) (cs : List (String × String))
    (f : String → String × String → Option ℚ) (r : String) (c : String × String) :
    Wide.get ⟨ri, cs, ri.map fun r' => cs.map (f r')⟩ r c =
      if r ∈ ri then (if c ∈ cs then f r c else none) else none := by
  simp only [Wide.get, find_zip_map]
  by_cases hr : r ∈ ri
  · by_cases hc : c ∈ cs
    · simp [hr, hc, find_zip_map]
    · simp [hr, hc, find_zip_map]
  · simp [hr]

theorem mem_pairProd {A B : List String} {a b : String} :
    (a, b) ∈ pairProd A B ↔ a ∈ A ∧ b ∈ B := by
  simp only [pairProd, List.mem_flatMap, List.mem_map, Prod.mk.injEq]
  constructor
  · rintro ⟨x, hx, y, hy, rfl, rfl⟩
    exact ⟨hx, hy⟩
  · rintro ⟨ha, hb⟩
    exact ⟨a, ha, b, hb, rfl, rfl⟩

theorem pairProd_nil_right (A : List String) : pairProd A [] = [] := by
  induction A with
  | nil => rfl
  | cons a tl ih =>
    simp only [pairProd, List.flatMap_cons, List.map_nil, List.nil_append] at ih ⊢
    exact ih

theorem flatMap_congr {α β : Type} {l : List α} {f g : α → List β}
    (h : ∀ a ∈ l, f a = g a) : l.flatMap f = l.flatMap g := by
  induction l with
  | nil => rfl
  | cons a tl ih =>
    simp only [List.flatMap_cons]
    rw [h a (List.mem_cons_self a tl),
      ih fun x hx => h x (List.mem_cons.mpr (Or.inr hx))]

theorem flatMap_const_nil {α β : Type} (l : List α) :
    (l.flatMap fun _ => ([] : List β)) = [] := by
  induction l with
  | nil => rfl
  | cons a tl ih => simp only [List.flatMap_cons, List.nil_append]; exact ih

theorem map_fst_pair (S : List String) (i : String) :
    (S.map fun b => (b, i)).map Prod.fst = S := by
  induction S with
  | nil => rfl
  | cons b bs ih =>
    simp only [List.map_cons]
    rw [ih]

theorem map_swap_pair (S : List String) (i : String) :
    (S.map fun b => (i, b)).map Prod.swap = S.map fun b => (b, i) := by
  induction S with
  | nil => rfl
  | cons b bs ih =>
    simp only [List.map_cons, Prod.swap_prod_mk]
    rw [ih]

theorem filter_fst_flatMap (inds S : List String) (hS : SortedLt S) (a : String)
    (ha : a ∈ S) :
    (((inds.flatMap fun i => S.map fun b => (b, i)).filter
        fun p => decide (p.1 = a)).map Prod.snd) = inds := by
  induction inds with
  | nil => rfl
  | cons i tl ih =>
    simp only [List.flatMap_cons, List.filter_append, List.map_append]
    rw [ih]
    have hmapfil : ∀ (L : List String),
        (((L.map fun b => (b, i)).filter fun p => decide (p.1 = a)).map
          Prod.snd) = (L.filter fun b => decide (b = a)).map fun _ => i := by
      intro L
      induction L with
      | nil => rfl
      | cons b bs ihb =>
        by_cases hba : b = a
        · simp only [List.map_cons, List.filter_cons]
          rw [if_pos (by simp [hba]), if_pos (by simp [hba])]
          simp [ihb]
        · simp only [List.map_cons, List.filter_cons]
          rw [if_neg (by simp [hba]), if_neg (by simp [hba])]
          exact ihb
    rw [hmapfil, filter_eq_singleton hS ha]
    rfl

/-- The unstack/swaplevel/sort_index composite produces the cartesian
product of the sorted unstacked labels (outer) with the sorted existing
columns (inner). -/
theorem sortColsLvl0_swap_unstack (inds labels : List String)
    (hs : SortedLt inds) :
    sortColsLvl0 (swapCols (unstackCols inds labels)) =
      pairProd (sortDedup labels) inds := by
  have hW : swapCols (unstackCols inds labels) =
      inds.flatMap fun i => (sortDedup labels).map fun b => (b, i) := by
    simp only [swapCols, unstackCols, List.map_flatMap]
    exact flatMap_congr fun i _ => map_swap_pair _ i
  rw [hW]
  by_cases hne : inds = []
  · subst hne
    rw [pairProd_nil_right]
    rfl
  · by_cases hSne : sortDedup labels = []
    · rw [hSne]
      have h1 : (inds.flatMap fun i => ([] : List String).map fun b => (b, i)) = [] :=
        flatMap_const_nil inds
      rw [h1]
      rfl
    · have hfst : (inds.flatMap fun i =>
          (sortDedup labels).map fun b => (b, i)).map Prod.fst =
            inds.flatMap fun _ => sortDedup labels := by
        rw [List.map_flatMap]
        exact flatMap_congr fun i _ => map_fst_pair _ i
      have hmem : ∀ a, a ∈ (inds.flatMap fun i =>
          (sortDedup labels).map fun b => (b, i)).map Prod.fst ↔
            a ∈ sortDedup labels := by
        intro a
        rw [hfst]
        simp only [List.mem_flatMap]
        constructor
        · rintro ⟨i, _, ha⟩
          exact ha
        · intro ha
          obtain ⟨i0, rest, rfl⟩ : ∃ x xs, inds = x :: xs := by
            cases inds with
            | nil => exact absurd rfl hne
            | cons x xs => exact ⟨x, xs, rfl⟩
          exact ⟨i0, List.mem_cons_self _ _, ha⟩
      have houter : sortDedup ((inds.flatMap fun i =>
          (sortDedup labels).map fun b => (b, i)).map Prod.fst) =
            sortDedup labels :=
        (sortDedup_congr hmem).trans (sortDedup_eq_self (sorted_sortDedup labels))
      show (sortDedup _).flatMap _ = _
      rw [houter]
      refine flatMap_congr fun a ha => ?_
      rw [filter_fst_flatMap inds (sortDedup labels) (sorted_sortDedup labels) a ha,
        sortDedup_eq_self hs]

theorem keptInds_sorted (t : RawCSV) : SortedLt (keptInds t) :=
  (sorted_sortDedup (rawInds (melt t))).sublist (List.filter_sublist _)

/-- Column labels of `dfYears`: all (year, indicator) pairs, years outer
and ascending, surviving indicators inner and ascending. -/
theorem dfYears_cols_eq (t : RawCSV) :
    dfYearsCols t = pairProd (presentYears t) (keptInds t) :=
  sortColsLvl0_swap_unstack _ _ (keptInds_sorted t)

/-- Column labels of `dfCountries`: all (country, indicator) pairs,
countries outer and ascending, surviving indicators inner and
ascending. -/
theorem dfCountries_cols_eq (t : RawCSV) :
    dfCountriesCols t = pairProd (presentCountries t) (keptInds t) :=
  sortColsLvl0_swap_unstack _ _ (keptInds_sorted t)

theorem dfYears_get (t : RawCSV) (c : String) (p : String × String) :
    (dfYears t).get c p =
      if c ∈ presentCountries t then
        (if p ∈ dfYearsCols t then dfYearsCell t c p else none)
      else none :=
  get_build _ _ _ _ _

theorem dfCountries_get (t : RawCSV) (y : String) (p : String × String) :
    (dfCountries t).get y p =
      if y ∈ presentYears t then
        (if p ∈ dfCountriesCols t then dfCountriesCell t y p else none)
      else none :=
  get_build _ _ _ _ _

theorem mem_prunedKeys_iff {t : RawCSV} {k : String × String} :
    k ∈ prunedKeys t ↔
      k ∈ pivotKeys t ∧ prunedShape1 t / 4 ≤ rowNonNull t k.1 k.2 := by
  simp [prunedKeys, List.mem_filter]

theorem mem_keptInds_iff {t : RawCSV} {i : String} :
    i ∈ keptInds t ↔ i ∈ pivotCols t ∧ pivotShape0 t / 4 ≤ colNonNull t i := by
  simp [keptInds, List.mem_filter]

/-! ## Tracing labels back to the source file -/

theorem mem_melt {t : RawCSV} {lr : LongRow} (h : lr ∈ melt t) :
    (∃ r ∈ t.rows, lr.country = r.countryName ∧
      lr.indicator = r.indicatorName) ∧ lr.year ∈ t.yearCols := by
  simp only [melt, List.mem_flatMap, List.mem_map] at h
  obtain ⟨p, hp, r, hr, rfl⟩ := h
  refine ⟨⟨r, hr, rfl, rfl⟩, ?_⟩
  have h2 : p.2 ∈ t.yearCols.enum.map Prod.snd := List.mem_map_of_mem Prod.snd hp
  rwa [List.enum_map_snd] at h2

theorem mem_rawKeys {l : List LongRow} {k : String × String}
    (h : k ∈ rawKeys l) :
    ∃ lr ∈ l, lr.value.isSome ∧ k = (lr.country, lr.year) := by
  simp only [rawKeys, List.mem_filterMap] at h
  obtain ⟨lr, hlr, hk⟩ := h
  by_cases hv : lr.value.isSome
  · rw [if_pos hv] at hk
    exact ⟨lr, hlr, hv, (Option.some_inj.mp hk).symm⟩
  · rw [if_neg hv] at hk
    cases hk

theorem mem_rawInds {l : List LongRow} {i : String} (h : i ∈ rawInds l) :
    ∃ lr ∈ l, i = lr.indicator := by
  simp only [rawInds, List.mem_filterMap] at h
  obtain ⟨lr, hlr, hk⟩ := h
  by_cases hv : lr.value.isSome
  · rw [if_pos hv] at hk
    exact ⟨lr, hlr, (Option.some_inj.mp hk).symm⟩
  · rw [if_neg hv] at hk
    cases hk

theorem mem_pivotKeys_elim {t : RawCSV} {k : String × String}
    (h : k ∈ pivotKeys t) :
    (∃ r ∈ t.rows, k.1 = r.countryName) ∧ k.2 ∈ t.yearCols := by
  simp only [pivotKeys, List.mem_flatMap, List.mem_map] at h
  obtain ⟨c, hc, y, hy, hk⟩ := h
  subst hk
  constructor
  · have hc' := mem_sortDedup.mp hc
    obtain ⟨k', hk', hfst⟩ := List.mem_map.mp hc'
    obtain ⟨lr, hlr, _, rfl⟩ := mem_rawKeys hk'
    obtain ⟨⟨r, hr, hcn, _⟩, _⟩ := mem_melt hlr
    exact ⟨r, hr, by rw [← hfst]; exact hcn⟩
  · have hy' := mem_sortDedup.mp hy
    obtain ⟨k', hk', hsnd⟩ := List.mem_map.mp hy'
    have hk'' := List.mem_of_mem_filter hk'
    obtain ⟨lr, hlr, _, rfl⟩ := mem_rawKeys hk''
    obtain ⟨_, hyear⟩ := mem_melt hlr
    rw [← hsnd]
    exact hyear

theorem mem_pivotCols_elim {t : RawCSV} {i : String} (h : i ∈ pivotCols t) :
    ∃ r ∈ t.rows, i = r.indicatorName := by
  have h' := mem_sortDedup.mp h
  obtain ⟨lr, hlr, rfl⟩ := mem_rawInds h'
  obtain ⟨⟨r, hr, _, hin⟩, _⟩ := mem_melt hlr
  exact ⟨r, hr, hin⟩

theorem mem_presentCountries_elim {t : RawCSV} {c : String}
    (h : c ∈ presentCountries t) : ∃ r ∈ t.rows, c = r.countryName := by
  have h' := mem_sortDedup.mp h
  obtain ⟨k, hk, hfst⟩ := List.mem_map.mp h'
  have hk' := List.mem_of_mem_filter hk
  obtain ⟨hc, _⟩ := mem_pivotKeys_elim hk'
  rw [← hfst]
  exact hc

theorem mem_presentYears_elim {t : RawCSV} {y : String}
    (h : y ∈ presentYears t) : y ∈ t.yearCols := by
  have h' := mem_sortDedup.mp h
  obtain ⟨k, hk, hsnd⟩ := List.mem_map.mp h'
  have hk' := List.mem_of_mem_filter hk
  obtain ⟨_, hy⟩ := mem_pivotKeys_elim hk'
  rw [← hsnd]
  exact hy

theorem mem_keptInds_elim {t : RawCSV} {i : String} (h : i ∈ keptInds t) :
    ∃ r ∈ t.rows, i = r.indicatorName :=
  mem_pivotCols_elim (mem_keptInds_iff.mp h).1

/-! ## Sortedness of the outer column level -/

theorem pairwise_fst_flatMap (S : List String)
    (g : String → List (String × String)) (hS : SortedLt S)
    (hg : ∀ a ∈ S, ∀ p ∈ g a, p.1 = a) :
    ((S.flatMap g).map Prod.fst).Pairwise strLe := by
  induction S with
  | nil => exact List.Pairwise.nil
  | cons a tl ih =>
    rcases List.pairwise_cons.mp hS with ⟨ha, htl⟩
    simp only [List.flatMap_cons, List.map_append]
    rw [List.pairwise_append]
    refine ⟨?_, ?_, ?_⟩
    · apply List.pairwise_of_forall_mem_list
      intro x hx y hy
      obtain ⟨p, hp, rfl⟩ := List.mem_map.mp hx
      obtain ⟨q, hq, rfl⟩ := List.mem_map.mp hy
      right
      rw [hg a (List.mem_cons_self a tl) p hp,
        hg a (List.mem_cons_self a tl) q hq]
    · exact ih htl fun x hx p hp => hg x (List.mem_cons.mpr (Or.inr hx)) p hp
    · intro x hx y hy
      obtain ⟨p, hp, rfl⟩ := List.mem_map.mp hx
      obtain ⟨q, hq, rfl⟩ := List.mem_map.mp hy
      obtain ⟨x', hx', hq'⟩ := List.mem_flatMap.mp hq
      left
      rw [hg a (List.mem_cons_self a tl) p hp,
        hg x' (List.mem_cons.mpr (Or.inr hx')) q hq']
      exact ha x' hx'

/-- The outer labels of a `sort_index(axis=1, level=0)` result are
ascending. -/
theorem sortColsLvl0_fst_sorted (cs : List (String × String)) :
    ((sortColsLvl0 cs).map Prod.fst).Pairwise strLe := by
  apply pairwise_fst_flatMap _ _ (sorted_sortDedup _)
  intro a _ p hp
  obtain ⟨b, _, rfl⟩ := List.mem_map.mp hp
  rfl

/-! ## The claims -/

/-- Claim C1: for every input, the two tables returned by `read_csv_data`
contain identical cell values for every surviving (country, year,
indicator) triple: whenever country `c`, year `y` and indicator `i` are
present in both tables' key sets, the cell of `dfYears` at row `c`,
column `(y, i)` equals the cell of `dfCountries` at row `y`, column
`(c, i)` — both are re-indexings of the same pruned table. -/
theorem c1_views_agree (t : RawCSV) (c y i : String)
    (h1 : c ∈ (dfYears t).rowIndex) (h2 : (y, i) ∈ (dfYears t).cols)
    (h3 : y ∈ (dfCountries t).rowIndex)
    (h4 : (c, i) ∈ (dfCountries t).cols) :
    (dfYears t).get c (y, i) = (dfCountries t).get y (c, i) := by
  have h1' : c ∈ presentCountries t := h1
  have h2' : (y, i) ∈ dfYearsCols t := h2
  have h3' : y ∈ presentYears t := h3
  have h4' : (c, i) ∈ dfCountriesCols t := h4
  rw [dfYears_get, dfCountries_get, if_pos h1', if_pos h2', if_pos h3',
    if_pos h4']
  rfl

/-- Witness for C1 at a concrete input: the hypotheses are satisfiable
and the two lookups agree. -/
theorem c1_views_agree_witness :
    ("A" ∈ (dfYears exampleT).rowIndex ∧
      ("0", "X") ∈ (dfYears exampleT).cols ∧
      "0" ∈ (dfCountries exampleT).rowIndex ∧
      ("A", "X") ∈ (dfCountries exampleT).cols) ∧
    (dfYears exampleT).get "A" ("0", "X") =
      (dfCountries exampleT).get "0" ("A", "X") :=
  ⟨⟨by decide, by decide, by decide, by decide⟩,
    c1_views_agree exampleT "A" "0" "X"
      (by decide) (by decide) (by decide) (by decide)⟩

/-- Claim C3 (counterexample): the spec says the column MultiIndex of
`dfCountries` has IndicatorName outer and CountryName inner.  On the
one-cell input with country "A" and indicator "X" the actual column list
is `[("A", "X")]` — CountryName outer — and differs from the
indicator-outer product the claim demands. -/
theorem c3_levels_cex :
    (dfCountries cexLevels).cols = [("A", "X")] ∧
    keptInds cexLevels = ["X"] ∧
    presentCountries cexLevels = ["A"] ∧
    (dfCountries cexLevels).rowIndex = ["0"] ∧
    (dfCountries cexLevels).cols ≠
      pairProd (keptInds cexLevels) (presentCountries cexLevels) := by
  decide

/-- Claim C3 (amended): `dfCountries` is row-indexed by Year and its
column MultiIndex has CountryName as the outer (first) level and
IndicatorName as the inner (second) level, for every input. -/
theorem c3_dfCountries_layout (t : RawCSV) :
    (dfCountries t).cols = pairProd (presentCountries t) (keptInds t) ∧
    (dfCountries t).rowIndex = presentYears t :=
  ⟨dfCountries_cols_eq t, rfl⟩

/-- Claim C4: row pruning evaluates its threshold against the
post-column-pruning column count — `(keptInds t).length + 2` (surviving
indicators plus the `Country Name` and `Year` columns) — and keeps a
(country, year) row of the pivoted table exactly when its number of
non-missing entries reaches `⌊0.25 · that count⌋`. -/
theorem c4_row_pruning (t : RawCSV) (c y : String) :
    (c, y) ∈ prunedKeys t ↔
      (c, y) ∈ pivotKeys t ∧
        ((keptInds t).length + 2) / 4 ≤ rowNonNull t c y :=
  mem_prunedKeys_iff

/-- Claim C5: in both returned tables the outer column labels (years in
`dfYears`, the outer level in `dfCountries`) appear in ascending order
(`strLe` is code-point lexicographic order, pandas' sort order for
string labels). -/
theorem c5_outer_sorted (t : RawCSV) :
    ((dfYears t).cols.map Prod.fst).Pairwise strLe ∧
    ((dfCountries t).cols.map Prod.fst).Pairwise strLe :=
  ⟨sortColsLvl0_fst_sorted _, sortColsLvl0_fst_sorted _⟩

/-- Claim C6: `read_csv_data` is deterministic — identical inputs give
identical output table pairs (same labels in the same order, same cells
including missing ones: `Wide` equality compares all of them). -/
theorem c6_deterministic (i1 i2 : Option GenTable) (h : i1 = i2) :
    read_csv_data_checked i1 = read_csv_data_checked i2 := by
  rw [h]

/-- Witness for C6 at a concrete input. -/
theorem c6_deterministic_witness :
    read_csv_data_checked (some exampleGen) =
      read_csv_data_checked (some exampleGen) :=
  c6_deterministic _ _ rfl

/-- Claim C8: for every input that is missing/unreadable or lacks one of
the five expected columns, `read_csv_data` propagates the underlying
error and never returns a table pair. -/
theorem c8_no_partial_result (inp : Option GenTable)
    (h : inp = none ∨ ∃ g, inp = some g ∧ ∃ s ∈ requiredCols, s ∉ g.header) :
    ¬ ∃ p, read_csv_data_checked inp = Except.ok p := by
  rintro ⟨p, hp⟩
  rcases h with rfl | ⟨g, rfl, s, hs, hmiss⟩
  · simp [read_csv_data_checked] at hp
  · simp only [read_csv_data_checked] at hp
    rw [if_neg (fun hall => hmiss (hall s hs))] at hp
    cases hp

/-- Witness for C8: a file whose header has only `Country Name` is
rejected. -/
theorem c8_no_partial_result_witness :
    ¬ ∃ p, read_csv_data_checked (some badGen) = Except.ok p :=
  c8_no_partial_result (some badGen)
    (Or.inr ⟨badGen, rfl, "Country Code", by decide, by decide⟩)

/-- Claim C2 (counterexample): the spec says an indicator non-missing in
only 20% of the rows is absent from the output whenever the pivoted
table has at least 5 rows.  On `cexThreshold` the pivoted table has 5
rows, indicator Z is non-missing in exactly 1 of them (20%), the pruning
threshold is `int(0.25·5) = 1 ≤ 1`, and Z appears in both outputs. -/
theorem c2_threshold_cex :
    pivotShape0 cexThreshold = 5 ∧
    5 * colNonNull cexThreshold "Z" = pivotShape0 cexThreshold ∧
    ("0", "Z") ∈ (dfYears cexThreshold).cols ∧
    ("A", "Z") ∈ (dfCountries cexThreshold).cols := by
  decide

/-- Claim C2 (amended): column pruning keeps exactly the pivoted-table
indicator columns whose non-missing count reaches `⌊0.25·rowCount⌋`
(rowCount before pruning); an indicator non-missing in exactly 20% of
the rows is absent from both outputs once the pivoted table has at least
20 rows; an indicator non-missing in exactly 25% of the rows is
retained by the pruning step. -/
theorem c2_column_pruning (t : RawCSV) (i : String) :
    (i ∈ keptInds t ↔
      i ∈ pivotCols t ∧ pivotShape0 t / 4 ≤ colNonNull t i) ∧
    (5 * colNonNull t i = pivotShape0 t → 20 ≤ pivotShape0 t →
      i ∉ ((dfYears t).cols.map Prod.snd) ∧
      i ∉ ((dfCountries t).cols.map Prod.snd)) ∧
    (4 * colNonNull t i = pivotShape0 t → i ∈ pivotCols t →
      i ∈ keptInds t) := by
  refine ⟨mem_keptInds_iff, ?_, ?_⟩
  · intro h20 hn
    have hdrop : ¬ pivotShape0 t / 4 ≤ colNonNull t i := by omega
    have hnk : i ∉ keptInds t := fun hk => hdrop (mem_keptInds_iff.mp hk).2
    constructor
    · intro hmem
      obtain ⟨p, hp, hsnd⟩ := List.mem_map.mp hmem
      obtain ⟨py, pi⟩ := p
      have hp' : (py, pi) ∈ dfYearsCols t := hp
      rw [dfYears_cols_eq t] at hp'
      have hpi : pi ∈ keptInds t := (mem_pairProd.mp hp').2
      have hpi' : pi = i := hsnd
      exact hnk (hpi' ▸ hpi)
    · intro hmem
      obtain ⟨p, hp, hsnd⟩ := List.mem_map.mp hmem
      obtain ⟨pc, pi⟩ := p
      have hp' : (pc, pi) ∈ dfCountriesCols t := hp
      rw [dfCountries_cols_eq t] at hp'
      have hpi : pi ∈ keptInds t := (mem_pairProd.mp hp').2
      have hpi' : pi = i := hsnd
      exact hnk (hpi' ▸ hpi)
  · intro h25 hpc
    refine mem_keptInds_iff.mpr ⟨hpc, ?_⟩
    omega

/-- Witness for C2 (amended) at a 20-row pivoted table: indicator Z
(non-missing in 4 rows, 20%) vanishes from both outputs; indicator W
(non-missing in 5 rows, 25%) is kept. -/
theorem c2_column_pruning_witness :
    (5 * colNonNull exampleWide "Z" = pivotShape0 exampleWide ∧
      20 ≤ pivotShape0 exampleWide ∧
      "Z" ∉ ((dfYears exampleWide).cols.map Prod.snd) ∧
      "Z" ∉ ((dfCountries exampleWide).cols.map Prod.snd)) ∧
    (4 * colNonNull exampleWide "W" = pivotShape0 exampleWide ∧
      "W" ∈ keptInds exampleWide) :=
  ⟨⟨by decide, by decide,
      ((c2_column_pruning exampleWide "Z").2.1 (by decide) (by decide)).1,
      ((c2_column_pruning exampleWide "Z").2.1 (by decide) (by decide)).2⟩,
    ⟨by decide,
      (c2_column_pruning exampleWide "W").2.2 (by decide) (by decide)⟩⟩

/-- Claim C7 (counterexample): the spec says the strings
`Country Code`, `Indicator Code`, `Unnamed: 66` never appear, at any
index level, in either output.  A valid input whose *indicator data
value* is the string "Country Code" puts that string into the inner
column level of both outputs. -/
theorem c7_dropped_cols_cex :
    cexDropName.valid ∧
    "Country Code" ∈ ((dfYears cexDropName).cols.map Prod.snd) ∧
    "Country Code" ∈ ((dfCountries cexDropName).cols.map Prod.snd) := by
  refine ⟨?_, by decide, by decide⟩
  refine ⟨by decide, ?_, ?_⟩
  · intro s hs
    fin_cases hs
    decide
  · intro r hr
    fin_cases hr
    decide

/-- Claim C7 (amended): for every valid input none of whose CountryName
or IndicatorName data values equals a dropped-column name, the labels
`Country Code`, `Indicator Code` and `Unnamed: 66` appear at no row or
column index level of either output table. -/
theorem c7_dropped_cols_absent (t : RawCSV) (hv : t.valid)
    (hdata : ∀ r ∈ t.rows,
      r.countryName ∉ droppedCols ∧ r.indicatorName ∉ droppedCols)
    (s : String) (hs : s ∈ droppedCols) :
    (s ∉ (dfYears t).rowIndex ∧ s ∉ ((dfYears t).cols.map Prod.fst) ∧
      s ∉ ((dfYears t).cols.map Prod.snd)) ∧
    (s ∉ (dfCountries t).rowIndex ∧
      s ∉ ((dfCountries t).cols.map Prod.fst) ∧
      s ∉ ((dfCountries t).cols.map Prod.snd)) := by
  have hsp : s ∈ specialCols := by
    fin_cases hs <;> decide
  have hC : s ∉ presentCountries t := by
    intro h
    obtain ⟨r, hr, rfl⟩ := mem_presentCountries_elim h
    exact (hdata r hr).1 hs
  have hY : s ∉ presentYears t := by
    intro h
    exact hv.2.1 s (mem_presentYears_elim h) hsp
  have hI : s ∉ keptInds t := by
    intro h
    obtain ⟨r, hr, rfl⟩ := mem_keptInds_elim h
    exact (hdata r hr).2 hs
  have hYpair : ∀ p : String × String, p ∈ (dfYears t).cols →
      p.1 ∈ presentYears t ∧ p.2 ∈ keptInds t := by
    intro p hp
    obtain ⟨a, b⟩ := p
    have hp' : (a, b) ∈ dfYearsCols t := hp
    rw [dfYears_cols_eq t] at hp'
    exact mem_pairProd.mp hp'
  have hCpair : ∀ p : String × String, p ∈ (dfCountries t).cols →
      p.1 ∈ presentCountries t ∧ p.2 ∈ keptInds t := by
    intro p hp
    obtain ⟨a, b⟩ := p
    have hp' : (a, b) ∈ dfCountriesCols t := hp
    rw [dfCountries_cols_eq t] at hp'
    exact mem_pairProd.mp hp'
  refine ⟨⟨hC, ?_, ?_⟩, ⟨hY, ?_, ?_⟩⟩
  · intro h
    obtain ⟨p, hp, hfst⟩ := List.mem_map.mp h
    exact hY (hfst ▸ (hYpair p hp).1)
  · intro h
    obtain ⟨p, hp, hsnd⟩ := List.mem_map.mp h
    exact hI (hsnd ▸ (hYpair p hp).2)
  · intro h
    obtain ⟨p, hp, hfst⟩ := List.mem_map.mp h
    exact hC (hfst ▸ (hCpair p hp).1)
  · intro h
    obtain ⟨p, hp, hsnd⟩ := List.mem_map.mp h
    exact hI (hsnd ▸ (hCpair p hp).2)

/-- Witness for C7 (amended) at a concrete valid input. -/
theorem c7_dropped_cols_absent_witness :
    ("Country Code" ∉ (dfYears exampleT).rowIndex ∧
      "Country Code" ∉ ((dfYears exampleT).cols.map Prod.fst) ∧
      "Country Code" ∉ ((dfYears exampleT).cols.map Prod.snd)) ∧
    ("Country Code" ∉ (dfCountries exampleT).rowIndex ∧
      "Country Code" ∉ ((dfCountries exampleT).cols.map Prod.fst) ∧
      "Country Code" ∉ ((dfCountries exampleT).cols.map Prod.snd)) :=
  c7_dropped_cols_absent exampleT
    (by refine ⟨by decide, ?_, ?_⟩ <;> · intro x hx; fin_cases hx <;> decide)
    (by intro r hr; fin_cases hr <;> exact ⟨by decide, by decide⟩)
    "Country Code" (by decide)

/-- Claim C9: duplicate (country, indicator, year) triples do not make
`read_csv_data` fail; `pivot_table`'s default `aggfunc='mean'` replaces
them by the arithmetic mean of their non-missing values, and that mean
is the single cell value of the triple in both output tables. -/
theorem c9_duplicates_mean (t : RawCSV) (c y i : String)
    (h1 : (c, y) ∈ prunedKeys t) (h2 : i ∈ keptInds t)
    (h3 : matchVals (melt t) c i y ≠ []) :
    (dfYears t).get c (y, i) =
      some ((matchVals (melt t) c i y).sum /
        ((matchVals (melt t) c i y).length : ℚ)) ∧
    (dfCountries t).get y (c, i) =
      some ((matchVals (melt t) c i y).sum /
        ((matchVals (melt t) c i y).length : ℚ)) := by
  have hc : c ∈ presentCountries t :=
    mem_sortDedup.mpr (List.mem_map_of_mem Prod.fst h1)
  have hy : y ∈ presentYears t :=
    mem_sortDedup.mpr (List.mem_map_of_mem Prod.snd h1)
  have hcolY : (y, i) ∈ dfYearsCols t := by
    rw [dfYears_cols_eq]
    exact mem_pairProd.mpr ⟨hy, h2⟩
  have hcolC : (c, i) ∈ dfCountriesCols t := by
    rw [dfCountries_cols_eq]
    exact mem_pairProd.mpr ⟨hc, h2⟩
  constructor
  · rw [dfYears_get, if_pos hc, if_pos hcolY]
    show prunedCell t c i y = _
    rw [prunedCell, if_pos h1, cellMean, if_neg h3]
  · rw [dfCountries_get, if_pos hy, if_pos hcolC]
    show prunedCell t c i y = _
    rw [prunedCell, if_pos h1, cellMean, if_neg h3]

/-- Witness for C9: the duplicated (A, X, year 0) triple with values 1
and 3 yields the mean 2 in both outputs. -/
theorem c9_duplicates_mean_witness :
    (dfYears exampleDup).get "A" ("0", "X") = some 2 ∧
    (dfCountries exampleDup).get "0" ("A", "X") = some 2 := by
  obtain ⟨h1, h2⟩ :=
    c9_duplicates_mean exampleDup "A" "0" "X" (by decide) (by decide)
      (by decide)
  have hv : matchVals (melt exampleDup) "A" "X" "0" = [1, 3] := by decide
  rw [hv] at h1 h2
  refine ⟨h1.trans ?_, h2.trans ?_⟩ <;>
  · norm_num [List.sum_cons, List.sum_nil]

/-- Claim C10: the row-pruning tally counts the two identifier columns
`Country Name` and `Year` (never missing after `reset_index`) both in
the column count entering the threshold and in each row's non-missing
count: the threshold column count is `k + 2` for `k` surviving
indicators, a row's tally is 2 plus its non-missing indicator count, a
row survives exactly when that indicator count is at least
`⌊0.25·(k+2)⌋ - 2`, and every row survives whenever
`⌊0.25·(k+2)⌋ ≤ 2`. -/
theorem c10_row_tally (t : RawCSV) (c y : String) :
    (prunedShape1 t = (keptInds t).length + 2) ∧
    (rowNonNull t c y = 2 +
      ((keptInds t).filter fun i => (cellMean (melt t) c i y).isSome).length) ∧
    ((c, y) ∈ prunedKeys t ↔ (c, y) ∈ pivotKeys t ∧
      ((keptInds t).length + 2) / 4 - 2 ≤
        ((keptInds t).filter fun i => (cellMean (melt t) c i y).isSome).length) ∧
    (((keptInds t).length + 2) / 4 ≤ 2 →
      ((c, y) ∈ prunedKeys t ↔ (c, y) ∈ pivotKeys t)) := by
  refine ⟨rfl, rfl, ?_, ?_⟩
  · rw [mem_prunedKeys_iff]
    refine and_congr_right fun _ => ?_
    show prunedShape1 t / 4 ≤ rowNonNull t c y ↔ _
    unfold prunedShape1 rowNonNull
    omega
  · intro hτ
    rw [mem_prunedKeys_iff]
    constructor
    · exact And.left
    · intro h
      refine ⟨h, ?_⟩
      show prunedShape1 t / 4 ≤ rowNonNull t c y
      unfold prunedShape1 rowNonNull
      omega

/-- Witness for C10 at a concrete input where `⌊0.25·(k+2)⌋ ≤ 2`: every
pivot row survives. -/
theorem c10_row_tally_witness :
    (((keptInds exampleT).length + 2) / 4 ≤ 2) ∧
    (("A", "0") ∈ prunedKeys exampleT ↔ ("A", "0") ∈ pivotKeys exampleT) :=
  ⟨by decide, (c10_row_tally exampleT "A" "0").2.2.2 (by decide)⟩

end Assignment2
